import Mathlib

/-!
Verification of `src/bin/split-bam-by-reads.rs`.

The program loads one identifier set per text source (one read name per
line, trimmed, inserted into a `HashSet`), opens one BAM writer per source,
and then streams the input BAM: for each record it scans the (set, writer)
pairs in construction order, and for the first set for which
`set.remove(query_name)` returns true it writes the record to that writer
and breaks.  At end of stream it logs, per bucket, the number of
identifiers still in the set ("unplaced reads").

Shallow embedding: identifiers are `String`, a record carries its query
name plus opaque payload bytes, a `HashSet` is a `Finset String`, a BAM
writer is the list of records written to it so far.  Fallible operations
(record decode, UTF-8 query-name decode, writes) are modelled in an
`Except String` layer; the pure layer is the projection where no error
occurs, related to the fallible layer by bridging lemmas.
-/

namespace SplitBam

/-- A BAM record: the query name (`record.qname()` decoded as UTF-8) plus
the rest of the record, opaque payload bytes passed through unchanged. -/
structure Record where
  qname : String
  payload : List Nat
  deriving DecidableEq

/-- One bucket of `outs`: the identifier set cloned from a text source and
the writer for that source, modelled as the list of records written. -/
structure Bucket where
  set : Finset String
  out : List Record
  deriving DecidableEq

/-- The routing loop body for one record (lines 84-89):
`for (out, set) in &mut outs { if set.remove(query_name) { out.write(&record)?; break; } }`.
Returns the updated buckets and the index of the matched bucket, `none`
when no set contained the query name.  Writes are assumed to succeed here;
`routeE` below is the fallible version. -/
def route (bs : List Bucket) (r : Record) : List Bucket × Option Nat :=
  match bs with
  | [] => ([], none)
  | b :: rest =>
    if r.qname ∈ b.set then
      ({ set := b.set.erase r.qname, out := b.out ++ [r] } :: rest, some 0)
    else
      let p := route rest r
      (b :: p.1, p.2.map (· + 1))

/-- The record loop (`bam.records().try_for_each`) with all records
decoding successfully: routes each record in arrival order, returning the
final buckets and the per-record outcomes. -/
def runTrace (bs : List Bucket) (rs : List Record) : List Bucket × List (Option Nat) :=
  match rs with
  | [] => (bs, [])
  | r :: rest =>
    let p := route bs r
    let q := runTrace p.1 rest
    (q.1, p.2 :: q.2)

/-- Rust's `str::trim`: the line with leading and trailing whitespace
characters removed. -/
def trim (s : String) : String :=
  ⟨((s.data.dropWhile Char.isWhitespace).reverse.dropWhile Char.isWhitespace).reverse⟩

/-- Loading one text source (lines 53-58): insert every line, trimmed,
into a fresh set.  Blank lines become the empty-string identifier. -/
def loadSet (ls : List String) : Finset String :=
  ls.foldl (fun s l => insert (trim l) s) ∅

/-- The per-source count logged at load time: `set.len()`. -/
def loadCount (ls : List String) : Nat :=
  (loadSet ls).card

/-- Loading all sources (`opts.reads.par_iter().map(...).collect::<Vec<_>>()`):
rayon's ordered collect materializes the sets in the order the sources
were supplied. -/
def loadSets (srcs : List (List String)) : List (Finset String) :=
  srcs.map loadSet

/-- Fallible routing loop: `out.write(&record)?` may fail.  `wf i r = true`
means the write of record `r` to bucket `i`'s output fails; `i` is the
absolute index of the first bucket of `bs` in the full bucket list.  As in
the source, the set removal happens before the write, but an error aborts
the whole run so the intermediate state is discarded. -/
def routeE (wf : Nat → Record → Bool) (i : Nat) (bs : List Bucket) (r : Record) :
    Except String (List Bucket) :=
  match bs with
  | [] => Except.ok []
  | b :: rest =>
    if r.qname ∈ b.set then
      if wf i r then Except.error "WriteFailure"
      else Except.ok ({ set := b.set.erase r.qname, out := b.out ++ [r] } :: rest)
    else
      match routeE wf (i + 1) rest r with
      | Except.error e => Except.error e
      | Except.ok rest2 => Except.ok (b :: rest2)

/-- The record loop with fallible decoding and writing
(`bam.records().try_for_each(|record| { ... })?`): each stream element is
either a decoded record or a decode / UTF-8 error; any error aborts
immediately and the remaining stream is never consumed. -/
def runE (wf : Nat → Record → Bool) (bs : List Bucket) :
    List (Except String Record) → Except String (List Bucket)
  | [] => Except.ok bs
  | x :: rest =>
    match x with
    | Except.error e => Except.error e
    | Except.ok r =>
      match routeE wf 0 bs r with
      | Except.error e => Except.error e
      | Except.ok bs2 => runE wf bs2 rest

/-- Observable side effects of a run, in order of occurrence: opening the
output writer for bucket `i` (`bam::Writer::from_path`), and the final
per-bucket log line `had {n} unplaced reads`. -/
inductive Event where
  | openedWriter (i : Nat)
  | leftoverReport (i : Nat) (n : Nat)
  deriving DecidableEq

/-- Loading all sources with fallible file opening
(`File::open(path).unwrap()`): a source is `none` when the file is missing
or unreadable, and any such source aborts the whole loading phase. -/
def loadSources : List (Option (List String)) → Except String (List (Finset String))
  | [] => Except.ok []
  | none :: _ => Except.error "SourceUnreadable"
  | some ls :: rest =>
    match loadSources rest with
    | Except.error e => Except.error e
    | Except.ok sets => Except.ok (loadSet ls :: sets)

/-- The whole of `main` after CLI parsing: load the identifier sets, open
the input BAM (`bamOk` says whether that succeeds), open one writer per
source, stream the records, and finally log the per-bucket leftover
counts.  Returns the process result together with the trace of observable
events. -/
def mainModel (fs : List (Option (List String))) (bamOk : Bool)
    (wf : Nat → Record → Bool) (stream : List (Except String Record)) :
    Except String Unit × List Event :=
  match loadSources fs with
  | Except.error e => (Except.error e, [])
  | Except.ok sets =>
    if bamOk then
      let wEvents := (List.range sets.length).map Event.openedWriter
      let buckets := sets.map fun s => ({ set := s, out := [] } : Bucket)
      match runE wf buckets stream with
      | Except.error e => (Except.error e, wEvents)
      | Except.ok bs2 =>
        (Except.ok (),
          wEvents ++ bs2.enum.map fun p => Event.leftoverReport p.1 p.2.set.card)
    else (Except.error "InputUnreadable", [])

/-- Written from the specification, for refinement comparison only ("If no
bucket's set contains the identifier, return Unmatched ...; increment a
per-run unmatched counter"): the number of records whose identifier is in
no bucket's set at the time the record is evaluated. -/
def specUnmatchedCount (sets : List (Finset String)) (rs : List Record) : Nat :=
  ((runTrace (sets.map fun s => ({ set := s, out := [] } : Bucket)) rs).2.count none)

/-! ### Unfolding equations -/

lemma route_nil (r : Record) : route [] r = ([], none) := rfl

lemma route_cons (b : Bucket) (rest : List Bucket) (r : Record) :
    route (b :: rest) r =
      if r.qname ∈ b.set then
        ({ set := b.set.erase r.qname, out := b.out ++ [r] } :: rest, some 0)
      else
        (b :: (route rest r).1, (route rest r).2.map (· + 1)) := rfl

lemma runTrace_nil (bs : List Bucket) : runTrace bs [] = (bs, []) := rfl

lemma runTrace_cons (bs : List Bucket) (r : Record) (rest : List Record) :
    runTrace bs (r :: rest) =
      ((runTrace (route bs r).1 rest).1,
        (route bs r).2 :: (runTrace (route bs r).1 rest).2) := rfl

/-! ### Characterization of one routing step -/

lemma route_length (bs : List Bucket) (r : Record) :
    (route bs r).1.length = bs.length := by
  induction bs with
  | nil => simp [route_nil]
  | cons b rest ih =>
    by_cases h : r.qname ∈ b.set <;> simp [route_cons, h, ih]

lemma route_none_iff (bs : List Bucket) (r : Record) :
    (route bs r).2 = none ↔ ∀ b ∈ bs, r.qname ∉ b.set := by
  induction bs with
  | nil => simp [route_nil]
  | cons b rest ih =>
    by_cases h : r.qname ∈ b.set
    · simp [route_cons, h]
    · simp [route_cons, h, Option.map_eq_none', ih]

lemma route_none_eq (bs : List Bucket) (r : Record)
    (h : (route bs r).2 = none) : (route bs r).1 = bs := by
  induction bs with
  | nil => rfl
  | cons b rest ih =>
    by_cases hb : r.qname ∈ b.set
    · simp [route_cons, hb] at h
    · rw [route_cons, if_neg hb] at h ⊢
      simp only [Option.map_eq_none'] at h
      simp [ih h]

lemma route_some_spec (bs : List Bucket) (r : Record) (j : Nat)
    (h : (route bs r).2 = some j) :
    ∃ b, bs.get? j = some b ∧ r.qname ∈ b.set ∧
      (∀ k, k < j → ∀ b2, bs.get? k = some b2 → r.qname ∉ b2.set) ∧
      (route bs r).1 = bs.set j { set := b.set.erase r.qname, out := b.out ++ [r] } := by
  induction bs generalizing j with
  | nil => simp [route_nil] at h
  | cons b rest ih =>
    by_cases hb : r.qname ∈ b.set
    · rw [route_cons, if_pos hb] at h ⊢
      obtain rfl : 0 = j := by simpa using h
      exact ⟨b, rfl, hb, fun k hk => absurd hk (Nat.not_lt_zero k), rfl⟩
    · rw [route_cons, if_neg hb] at h ⊢
      rw [Option.map_eq_some'] at h
      obtain ⟨j0, hj0, rfl⟩ := h
      obtain ⟨b1, hget, hmem, hmin, heq⟩ := ih j0 hj0
      refine ⟨b1, by simpa using hget, hmem, ?_, by simp [heq]⟩
      intro k hk b2 hb2
      match k with
      | 0 =>
        simp only [List.get?_cons_zero, Option.some_inj] at hb2
        subst hb2; exact hb
      | k0 + 1 =>
        simp only [List.get?_cons_succ] at hb2
        exact hmin k0 (by omega) b2 hb2

lemma route_step_at (bs : List Bucket) (r : Record) (i : Nat) (b : Bucket)
    (hb : bs.get? i = some b) :
    ∃ b2, (route bs r).1.get? i = some b2 ∧
      b2.set.card + (if (route bs r).2 = some i then 1 else 0) = b.set.card ∧
      b2.out = b.out ++ (if (route bs r).2 = some i then [r] else []) ∧
      ((route bs r).2 ≠ some i → b2 = b) := by
  cases hsnd : (route bs r).2 with
  | none =>
    refine ⟨b, ?_, by simp, by simp, fun _ => rfl⟩
    rw [route_none_eq bs r hsnd]; exact hb
  | some j =>
    obtain ⟨b1, hget, hmem, hmin, heq⟩ := route_some_spec bs r j hsnd
    by_cases hij : j = i
    · subst hij
      rw [hb] at hget
      injection hget with hget
      subst hget
      obtain ⟨hlt, -⟩ := List.get?_eq_some.mp hb
      refine ⟨{ set := b.set.erase r.qname, out := b.out ++ [r] }, ?_, ?_, ?_, ?_⟩
      · rw [heq]; exact List.get?_set_eq_of_lt _ hlt
      · have hpos : 0 < b.set.card := Finset.card_pos.mpr ⟨_, hmem⟩
        simp [Finset.card_erase_of_mem hmem]
        omega
      · simp
      · exact fun hne => absurd rfl hne
    · refine ⟨b, ?_, by simp [hij], by simp [hij], fun _ => rfl⟩
      rw [heq, List.get?_set_ne _ _ hij]
      exact hb

lemma runTrace_at (bs : List Bucket) (rs : List Record) (i : Nat) (b : Bucket)
    (hb : bs.get? i = some b) :
    ∃ b2 w, (runTrace bs rs).1.get? i = some b2 ∧
      b2.set.card + ((runTrace bs rs).2.count (some i)) = b.set.card ∧
      b2.out = b.out ++ w ∧ w.Sublist rs := by
  induction rs generalizing bs b with
  | nil => exact ⟨b, [], hb, by simp [runTrace_nil], by simp, List.Sublist.refl []⟩
  | cons r rest ih =>
    obtain ⟨bmid, hmidget, hmidcard, hmidout, -⟩ := route_step_at bs r i b hb
    obtain ⟨b2, w, hget, hcard, hout, hsub⟩ := ih (route bs r).1 bmid hmidget
    refine ⟨b2, (if (route bs r).2 = some i then [r] else []) ++ w, ?_, ?_, ?_, ?_⟩
    · rw [runTrace_cons]; exact hget
    · rw [runTrace_cons]
      simp only [List.count_cons, beq_iff_eq]
      by_cases hc : (route bs r).2 = some i
      · rw [if_pos hc] at hmidcard
        rw [if_pos hc]
        omega
      · rw [if_neg hc] at hmidcard
        rw [if_neg hc]
        omega
    · rw [hout, hmidout, List.append_assoc]
    · by_cases hc : (route bs r).2 = some i
      · rw [if_pos hc]; exact List.Sublist.cons₂ r hsub
      · rw [if_neg hc]; simpa using List.Sublist.cons r hsub

/-! ### Bridging the fallible layer to the pure layer -/

lemma routeE_nil (wf : Nat → Record → Bool) (i : Nat) (r : Record) :
    routeE wf i [] r = Except.ok [] := rfl

lemma routeE_cons (wf : Nat → Record → Bool) (i : Nat) (b : Bucket)
    (rest : List Bucket) (r : Record) :
    routeE wf i (b :: rest) r =
      if r.qname ∈ b.set then
        (if wf i r then Except.error "WriteFailure"
         else Except.ok ({ set := b.set.erase r.qname, out := b.out ++ [r] } :: rest))
      else
        match routeE wf (i + 1) rest r with
        | Except.error e => Except.error e
        | Except.ok rest2 => Except.ok (b :: rest2) := rfl

lemma routeE_ok_of_no_fail (wf : Nat → Record → Bool) (r : Record)
    (h : ∀ j, wf j r = false) :
    ∀ (bs : List Bucket) (i : Nat), routeE wf i bs r = Except.ok (route bs r).1 := by
  intro bs
  induction bs with
  | nil => intro i; rfl
  | cons b rest ih =>
    intro i
    by_cases hb : r.qname ∈ b.set
    · rw [routeE_cons, if_pos hb, if_neg (by simp [h i]), route_cons, if_pos hb]
    · rw [routeE_cons, if_neg hb, ih (i + 1), route_cons, if_neg hb]

lemma runE_nil (wf : Nat → Record → Bool) (bs : List Bucket) :
    runE wf bs [] = Except.ok bs := rfl

lemma runE_cons_error (wf : Nat → Record → Bool) (bs : List Bucket) (e : String)
    (rest : List (Except String Record)) :
    runE wf bs (Except.error e :: rest) = Except.error e := rfl

lemma runE_cons_ok (wf : Nat → Record → Bool) (bs : List Bucket) (r : Record)
    (rest : List (Except String Record)) :
    runE wf bs (Except.ok r :: rest) =
      match routeE wf 0 bs r with
      | Except.error e => Except.error e
      | Except.ok bs2 => runE wf bs2 rest := rfl

lemma runE_map_ok (wf : Nat → Record → Bool) (h : ∀ j r, wf j r = false) :
    ∀ (rs : List Record) (bs : List Bucket),
      runE wf bs (rs.map Except.ok) = Except.ok (runTrace bs rs).1 := by
  intro rs
  induction rs with
  | nil => intro bs; rfl
  | cons r rest ih =>
    intro bs
    rw [List.map_cons, runE_cons_ok, routeE_ok_of_no_fail wf r (fun j => h j r) bs 0,
      runTrace_cons]
    exact ih (route bs r).1

lemma runE_append_of_ok (wf : Nat → Record → Bool) :
    ∀ (pre : List (Except String Record)) (bs bsMid : List Bucket)
      (rest : List (Except String Record)),
      runE wf bs pre = Except.ok bsMid →
      runE wf bs (pre ++ rest) = runE wf bsMid rest := by
  intro pre
  induction pre with
  | nil =>
    intro bs bsMid rest h
    rw [runE_nil] at h
    injection h with h
    rw [List.nil_append, h]
  | cons x pre2 ih =>
    intro bs bsMid rest h
    cases x with
    | error e => rw [runE_cons_error] at h; exact absurd h (by simp)
    | ok r =>
      rw [runE_cons_ok] at h
      cases hroute : routeE wf 0 bs r with
      | error e => rw [hroute] at h; exact absurd h (by simp)
      | ok bs2 =>
        rw [hroute] at h
        rw [List.cons_append, runE_cons_ok, hroute]
        exact ih bs2 bsMid rest h

lemma routeE_error_of_match (wf : Nat → Record → Bool) (r : Record) :
    ∀ (bs : List Bucket) (i j : Nat),
      (route bs r).2 = some j → wf (i + j) r = true →
      routeE wf i bs r = Except.error "WriteFailure" := by
  intro bs
  induction bs with
  | nil => intro i j hj _; simp [route_nil] at hj
  | cons b rest ih =>
    intro i j hj hw
    by_cases hb : r.qname ∈ b.set
    · rw [route_cons, if_pos hb] at hj
      obtain rfl : 0 = j := by simpa using hj
      rw [routeE_cons, if_pos hb, if_pos (by simpa using hw)]
    · rw [route_cons, if_neg hb] at hj
      rw [Option.map_eq_some'] at hj
      obtain ⟨j0, hj0, rfl⟩ := hj
      have hw2 : wf (i + 1 + j0) r = true := by
        have harith : i + 1 + j0 = i + (j0 + 1) := by omega
        rw [harith]; exact hw
      rw [routeE_cons, if_neg hb, ih (i + 1) j0 hj0 hw2]

/-! ### Loading lemmas -/

lemma loadSources_error_of_none (fs : List (Option (List String)))
    (h : none ∈ fs) : ∃ e, loadSources fs = Except.error e := by
  induction fs with
  | nil => simp at h
  | cons x rest ih =>
    cases x with
    | none => exact ⟨"SourceUnreadable", rfl⟩
    | some ls =>
      have hrest : none ∈ rest := by simpa using h
      obtain ⟨e, he⟩ := ih hrest
      refine ⟨e, ?_⟩
      show (match loadSources rest with
        | Except.error e => Except.error e
        | Except.ok sets => Except.ok (loadSet ls :: sets)) = Except.error e
      rw [he]

lemma mem_foldl_insert (ls : List String) :
    ∀ (s : Finset String) (x : String),
      x ∈ ls.foldl (fun s l => insert (trim l) s) s ↔ x ∈ s ∨ ∃ l ∈ ls, trim l = x := by
  induction ls with
  | nil => intro s x; simp
  | cons l rest ih =>
    intro s x
    rw [List.foldl_cons, ih]
    simp only [Finset.mem_insert, List.mem_cons]
    constructor
    · rintro (⟨rfl | hs⟩ | ⟨l2, hl2, rfl⟩)
      · exact Or.inr ⟨l, Or.inl rfl, rfl⟩
      · exact Or.inl hs
      · exact Or.inr ⟨l2, Or.inr hl2, rfl⟩
    · rintro (hs | ⟨l2, hl2 | hl2, rfl⟩)
      · exact Or.inl (Or.inr hs)
      · exact Or.inl (Or.inl (by rw [hl2]))
      · exact Or.inr ⟨l2, hl2, rfl⟩

lemma mem_loadSet (ls : List String) (x : String) :
    x ∈ loadSet ls ↔ ∃ l ∈ ls, trim l = x := by
  rw [loadSet, mem_foldl_insert]
  simp

lemma loadSet_eq_toFinset (ls : List String) :
    loadSet ls = (ls.map trim).toFinset := by
  ext x
  rw [mem_loadSet]
  simp [List.mem_map, eq_comm]

lemma loadCount_eq (ls : List String) :
    loadCount ls = ((ls.map trim).dedup).length := by
  rw [loadCount, loadSet_eq_toFinset]
  exact List.card_toFinset _

/-! ### Claim theorems -/

/-- C1: the router scans buckets in construction order; for the first
bucket whose set contains the record's identifier it removes the
identifier from the set and appends the record to that bucket's output,
stopping there (a record reaches at most one bucket); and when an
identifier is in both bucket 1's and bucket 2's sets, the first record
with it goes to bucket 1 and a following record with it to bucket 2. -/
theorem c1_route_first_match (bs : List Bucket) (r : Record) :
    ((route bs r).2 = none ↔ ∀ b ∈ bs, r.qname ∉ b.set) ∧
    (∀ j, (route bs r).2 = some j →
      ∃ b, bs.get? j = some b ∧ r.qname ∈ b.set ∧
        (∀ k, k < j → ∀ b2, bs.get? k = some b2 → r.qname ∉ b2.set) ∧
        (route bs r).1 =
          bs.set j { set := b.set.erase r.qname, out := b.out ++ [r] }) ∧
    (∀ (b0 b1 : Bucket) (rest : List Bucket) (r2 : Record),
      bs = b0 :: b1 :: rest → r.qname ∈ b0.set → r.qname ∈ b1.set →
      r2.qname = r.qname →
      (route bs r).2 = some 0 ∧ (route (route bs r).1 r2).2 = some 1) := by
  refine ⟨route_none_iff bs r, fun j => route_some_spec bs r j, ?_⟩
  rintro b0 b1 rest r2 rfl h0 h1 hq
  have hstep : route (b0 :: b1 :: rest) r =
      ({ set := b0.set.erase r.qname, out := b0.out ++ [r] } :: b1 :: rest, some 0) := by
    rw [route_cons, if_pos h0]
  refine ⟨by rw [hstep], ?_⟩
  rw [hstep]
  have hnot : r2.qname ∉ b0.set.erase r.qname := by
    rw [hq]; exact Finset.not_mem_erase _ _
  have hmem1 : r2.qname ∈ b1.set := by rw [hq]; exact h1
  rw [route_cons, if_neg hnot, route_cons, if_pos hmem1]
  rfl

/-- C1 witness at a concrete overlap: identifier `a` in both buckets. -/
theorem c1_route_first_match_witness :
    (route [⟨{"a"}, []⟩, ⟨{"a"}, []⟩] ⟨"a", [1]⟩).2 = some 0 ∧
    (route (route [⟨{"a"}, []⟩, ⟨{"a"}, []⟩] ⟨"a", [1]⟩).1 ⟨"a", [2]⟩).2 = some 1 :=
  (c1_route_first_match [⟨{"a"}, []⟩, ⟨{"a"}, []⟩] ⟨"a", [1]⟩).2.2
    ⟨{"a"}, []⟩ ⟨{"a"}, []⟩ [] ⟨"a", [2]⟩ rfl (by decide) (by decide) rfl

/-- C10: an unmatched record changes no bucket at all; a matched record
changes exactly the matched bucket (set loses the identifier, output
gains the record) and leaves every other bucket's set and output
untouched. -/
theorem c10_route_frame (bs : List Bucket) (r : Record) :
    ((∀ b ∈ bs, r.qname ∉ b.set) →
      (route bs r).1 = bs ∧ (route bs r).2 = none) ∧
    (∀ j, (route bs r).2 = some j →
      (∀ k, k ≠ j → (route bs r).1.get? k = bs.get? k) ∧
      (∃ b, bs.get? j = some b ∧
        (route bs r).1.get? j =
          some { set := b.set.erase r.qname, out := b.out ++ [r] })) := by
  constructor
  · intro h
    have hnone := (route_none_iff bs r).mpr h
    exact ⟨route_none_eq bs r hnone, hnone⟩
  · intro j hj
    obtain ⟨b, hget, hmem, hmin, heq⟩ := route_some_spec bs r j hj
    constructor
    · intro k hk
      rw [heq, List.get?_set_ne _ _ (Ne.symm hk)]
    · obtain ⟨hlt, -⟩ := List.get?_eq_some.mp hget
      exact ⟨b, hget, by rw [heq]; exact List.get?_set_eq_of_lt _ hlt⟩

/-- C10 witness: `a` matches bucket 1, and bucket 0 is untouched. -/
theorem c10_route_frame_witness :
    (route [⟨{"b"}, []⟩, ⟨{"a"}, []⟩] ⟨"a", [1]⟩).1.get? 0 = some ⟨{"b"}, []⟩ :=
  ((c10_route_frame [⟨{"b"}, []⟩, ⟨{"a"}, []⟩] ⟨"a", [1]⟩).2 1 (by decide)).1 0
    (by decide)

/-- C3: after the whole stream, the number of identifiers left in bucket
`i`'s set equals its initial size minus the number of records routed to
bucket `i`; and each single step that matches bucket `i` shrinks its set
by exactly one while any step that does not match bucket `i` leaves that
bucket entirely unchanged. -/
theorem c3_leftover_counts (bs : List Bucket) (rs : List Record) (i : Nat)
    (b : Bucket) (hb : bs.get? i = some b) :
    (∃ b2, (runTrace bs rs).1.get? i = some b2 ∧
      b2.set.card + ((runTrace bs rs).2.count (some i)) = b.set.card ∧
      b2.set.card = b.set.card - ((runTrace bs rs).2.count (some i)) ∧
      ((runTrace bs rs).2.count (some i)) ≤ b.set.card) ∧
    (∀ r : Record, ∃ b4, (route bs r).1.get? i = some b4 ∧
      b4.set.card + (if (route bs r).2 = some i then 1 else 0) = b.set.card ∧
      ((route bs r).2 ≠ some i → b4 = b)) := by
  constructor
  · obtain ⟨b2, w, hget, hcard, -, -⟩ := runTrace_at bs rs i b hb
    exact ⟨b2, hget, hcard, by omega, by omega⟩
  · intro r
    obtain ⟨b4, hget, hcard, -, hframe⟩ := route_step_at bs r i b hb
    exact ⟨b4, hget, hcard, hframe⟩

/-- C3 witness: one of two requested identifiers arrives; leftover 1. -/
theorem c3_leftover_counts_witness :
    ∃ b2, (runTrace [⟨{"a", "c"}, []⟩] [⟨"a", [1]⟩]).1.get? 0 = some b2 ∧
      b2.set.card + ((runTrace [⟨{"a", "c"}, []⟩] [⟨"a", [1]⟩]).2.count (some 0)) =
        (Bucket.mk {"a", "c"} []).set.card ∧
      b2.set.card =
        (Bucket.mk {"a", "c"} []).set.card -
          ((runTrace [⟨{"a", "c"}, []⟩] [⟨"a", [1]⟩]).2.count (some 0)) ∧
      ((runTrace [⟨{"a", "c"}, []⟩] [⟨"a", [1]⟩]).2.count (some 0)) ≤
        (Bucket.mk {"a", "c"} []).set.card :=
  (c3_leftover_counts [⟨{"a", "c"}, []⟩] [⟨"a", [1]⟩] 0 ⟨{"a", "c"}, []⟩
    (by decide)).1

/-- C5: the records written to any bucket form, in order, a subsequence
of the input stream, so their identifier sequence is a subsequence of the
input identifier sequence: the router never reorders records. -/
theorem c5_output_subsequence (bs : List Bucket) (rs : List Record) (i : Nat)
    (b : Bucket) (hb : bs.get? i = some b) :
    ∃ b2 w, (runTrace bs rs).1.get? i = some b2 ∧
      b2.out = b.out ++ w ∧ w.Sublist rs ∧
      (w.map Record.qname).Sublist (rs.map Record.qname) := by
  obtain ⟨b2, w, hget, -, hout, hsub⟩ := runTrace_at bs rs i b hb
  exact ⟨b2, w, hget, hout, hsub, hsub.map Record.qname⟩

/-- C5 witness on a concrete stream where only some records match. -/
theorem c5_output_subsequence_witness :
    ∃ b2 w,
      (runTrace [⟨{"a", "c"}, []⟩] [⟨"a", [1]⟩, ⟨"b", [2]⟩, ⟨"c", [3]⟩]).1.get? 0 =
        some b2 ∧
      b2.out = (Bucket.mk {"a", "c"} []).out ++ w ∧
      w.Sublist [⟨"a", [1]⟩, ⟨"b", [2]⟩, ⟨"c", [3]⟩] ∧
      (w.map Record.qname).Sublist
        ([⟨"a", [1]⟩, ⟨"b", [2]⟩, ⟨"c", [3]⟩].map Record.qname) :=
  c5_output_subsequence [⟨{"a", "c"}, []⟩] [⟨"a", [1]⟩, ⟨"b", [2]⟩, ⟨"c", [3]⟩] 0
    ⟨{"a", "c"}, []⟩ (by decide)

/-- C4: the §8 scenario: identifiers `[a,b,a,c,d]`, S1 = `{a,c}`,
S2 = `{b,d}`: bucket 1 gets records 1 and 4, bucket 2 gets records 2 and
5, record 3 is unmatched and written nowhere, both leftover sets are
empty, and the unmatched count is 1. -/
theorem c4_scenario :
    (runTrace [⟨{"a", "c"}, []⟩, ⟨{"b", "d"}, []⟩]
        [⟨"a", [1]⟩, ⟨"b", [2]⟩, ⟨"a", [3]⟩, ⟨"c", [4]⟩, ⟨"d", [5]⟩]).2 =
      [some 0, some 1, none, some 0, some 1] ∧
    (runTrace [⟨{"a", "c"}, []⟩, ⟨{"b", "d"}, []⟩]
        [⟨"a", [1]⟩, ⟨"b", [2]⟩, ⟨"a", [3]⟩, ⟨"c", [4]⟩, ⟨"d", [5]⟩]).1 =
      [⟨∅, [⟨"a", [1]⟩, ⟨"c", [4]⟩]⟩, ⟨∅, [⟨"b", [2]⟩, ⟨"d", [5]⟩]⟩] ∧
    ((runTrace [⟨{"a", "c"}, []⟩, ⟨{"b", "d"}, []⟩]
        [⟨"a", [1]⟩, ⟨"b", [2]⟩, ⟨"a", [3]⟩, ⟨"c", [4]⟩, ⟨"d", [5]⟩]).2.count none) = 1 := by
  decide

/-- C6: the loaded set is exactly the set of trimmed lines of the source,
blank lines included as the empty-string identifier; the sets are
materialized in the same order as the source list; and loading the same
source twice yields equal sets. -/
theorem c6_loader_contract (ls : List String) (x : String)
    (srcs : List (List String)) (i : Nat) :
    (x ∈ loadSet ls ↔ ∃ l ∈ ls, trim l = x) ∧
    (∀ l ∈ ls, trim l = "" → "" ∈ loadSet ls) ∧
    ((loadSets srcs).get? i = (srcs.get? i).map loadSet) ∧
    loadSet ls = loadSet ls := by
  refine ⟨mem_loadSet ls x, ?_, ?_, rfl⟩
  · intro l hl htrim
    exact (mem_loadSet ls "").mpr ⟨l, hl, htrim⟩
  · rw [loadSets, List.get?_map]

/-- C6 witness: a blank line loads as the empty-string identifier. -/
theorem c6_loader_contract_witness :
    "" ∈ loadSet ["a", "  "] :=
  (c6_loader_contract ["a", "  "] "" [] 0).2.1 "  " (by decide) (by decide)

/-- C9: lines that are equal after trimming collapse to one identifier,
the count logged at load time is the number of distinct trimmed lines,
and that count can differ from the number of lines in the file. -/
theorem c9_duplicate_lines_collapse (ls : List String) (l : String) :
    loadSet (l :: l :: ls) = loadSet (l :: ls) ∧
    loadCount ls = ((ls.map trim).dedup).length ∧
    (∃ ms : List String, loadCount ms ≠ ms.length) := by
  refine ⟨?_, loadCount_eq ls, ⟨["a", "a"], by decide⟩⟩
  rw [loadSet_eq_toFinset, loadSet_eq_toFinset]
  simp [List.toFinset_cons, Finset.insert_idem]

/-- C7: a decode (or UTF-8) error in the stream aborts the run right
there with that error, a write failure on the matched bucket aborts the
run right there, and in either case `main` ends in the error with only
the writer-opening events in its trace: finalization never runs and no
summary (leftover report) is produced. -/
theorem c7_error_propagation :
    (∀ (wf : Nat → Record → Bool) (bs bsMid : List Bucket)
        (pre post : List (Except String Record)) (e : String),
      runE wf bs pre = Except.ok bsMid →
      runE wf bs (pre ++ Except.error e :: post) = Except.error e) ∧
    (∀ (wf : Nat → Record → Bool) (bs bsMid : List Bucket)
        (pre post : List (Except String Record)) (rec : Record) (j : Nat),
      runE wf bs pre = Except.ok bsMid →
      (route bsMid rec).2 = some j → wf j rec = true →
      runE wf bs (pre ++ Except.ok rec :: post) = Except.error "WriteFailure") ∧
    (∀ (fs : List (Option (List String))) (wf : Nat → Record → Bool)
        (sets : List (Finset String)) (stream : List (Except String Record))
        (e : String),
      loadSources fs = Except.ok sets →
      runE wf (sets.map fun s => ({ set := s, out := [] } : Bucket)) stream =
        Except.error e →
      mainModel fs true wf stream =
        (Except.error e, (List.range sets.length).map Event.openedWriter)) := by
  refine ⟨?_, ?_, ?_⟩
  · intro wf bs bsMid pre post e h
    rw [runE_append_of_ok wf pre bs bsMid _ h, runE_cons_error]
  · intro wf bs bsMid pre post rec j h hj hw
    rw [runE_append_of_ok wf pre bs bsMid _ h, runE_cons_ok,
      routeE_error_of_match wf rec bsMid 0 j hj (by simpa using hw)]
  · intro fs wf sets stream e hload hrun
    simp [mainModel, hload, hrun]

/-- C7 witness: a decode error as the very first stream element aborts
the empty-bucket run with that error. -/
theorem c7_error_propagation_witness :
    runE (fun _ _ => false) [] ([] ++ Except.error "DecodeError" :: []) =
      Except.error "DecodeError" :=
  c7_error_propagation.1 (fun _ _ => false) [] [] [] [] "DecodeError" rfl

/-- C8: one missing or unreadable source file makes the whole run fail
with an error and an empty event trace: in particular no bucket output
writer is ever opened. -/
theorem c8_missing_source_aborts (fs : List (Option (List String)))
    (bamOk : Bool) (wf : Nat → Record → Bool)
    (stream : List (Except String Record)) (h : none ∈ fs) :
    ∃ e, mainModel fs bamOk wf stream = (Except.error e, []) := by
  obtain ⟨e, he⟩ := loadSources_error_of_none fs h
  exact ⟨e, by simp [mainModel, he]⟩

/-- C8 witness: a single unreadable source. -/
theorem c8_missing_source_aborts_witness :
    ∃ e, mainModel [none] true (fun _ _ => false) [] = (Except.error e, []) :=
  c8_missing_source_aborts [none] true (fun _ _ => false) [] (by decide)

/-- C2 counterexample: two runs that differ in the number of records seen
and in the number of unmatched records produce exactly the same run
result and event trace, so the run's outcome contains neither a
total-seen nor a total-unmatched count; the per-record unmatched counter
the spec describes exists only on the spec side. -/
theorem c2_no_unmatched_counter :
    mainModel [some ["x"]] true (fun _ _ => false) [Except.ok ⟨"x", [1]⟩] =
      mainModel [some ["x"]] true (fun _ _ => false)
        [Except.ok ⟨"x", [1]⟩, Except.ok ⟨"y", [2]⟩] ∧
    specUnmatchedCount [loadSet ["x"]] [⟨"x", [1]⟩] = 0 ∧
    specUnmatchedCount [loadSet ["x"]] [⟨"x", [1]⟩, ⟨"y", [2]⟩] = 1 :=
  ⟨rfl, by decide, by decide⟩

/-- C2 amended: on a stream consumed to end-of-stream without error, the
run returns plain success and its reporting consists of the per-bucket
leftover counts only. -/
theorem c2_summary_leftovers_only (fs : List (Option (List String)))
    (sets : List (Finset String)) (rs : List Record)
    (hload : loadSources fs = Except.ok sets) :
    mainModel fs true (fun _ _ => false) (rs.map Except.ok) =
      (Except.ok (),
        ((List.range sets.length).map Event.openedWriter) ++
          ((runTrace (sets.map fun s => ({ set := s, out := [] } : Bucket)) rs).1.enum.map
            fun p => Event.leftoverReport p.1 p.2.set.card)) := by
  have hrun := runE_map_ok (fun _ _ => false) (fun _ _ => rfl) rs
    (sets.map fun s => ({ set := s, out := [] } : Bucket))
  simp [mainModel, hload, hrun]

/-- C2 amended witness: one source, one matching record. -/
theorem c2_summary_leftovers_only_witness :
    mainModel [some ["x"]] true (fun _ _ => false)
        ([(⟨"x", [1]⟩ : Record)].map Except.ok) =
      (Except.ok (),
        ((List.range ([loadSet ["x"]] : List (Finset String)).length).map
            Event.openedWriter) ++
          ((runTrace ([loadSet ["x"]].map fun s =>
              ({ set := s, out := [] } : Bucket)) [⟨"x", [1]⟩]).1.enum.map
            fun p => Event.leftoverReport p.1 p.2.set.card)) :=
  c2_summary_leftovers_only [some ["x"]] [loadSet ["x"]] [⟨"x", [1]⟩] rfl

end SplitBam
